import Mathlib

/-!
Verification of the LaTerM (xterm-latex) core: the streaming LaTeX
detector/substitutor (`latex-processor.ts`), the placeholder codec and
expression store (`latex-hashmap.ts`, modelled from the spec where the
source file is absent), and the overlay synchronizer
(`overlay-manager.ts`).  Text is modelled as `List Char`; the external
rendering delegate (KaTeX + DOM measurement) and the cell metrics are
parameters of an `Env`.
-/

namespace LaTerM

/-- Grid/stream text is a list of characters. -/
abbrev Str := List Char

/-- The ASCII range of the JavaScript regex class `\s` (space, tab,
newline, vertical tab, form feed, carriage return). -/
def isSpaceJS (c : Char) : Bool :=
  c = ' ' || c = '\t' || c = '\n' || c = '\x0b' || c = '\x0c' || c = '\r'

/-- The character class `[0-9A-Za-z]` of the decode regex in
`overlay-manager.ts` line 356. -/
def isAlnumJS (c : Char) : Bool :=
  ('0' ≤ c && c ≤ '9') || ('A' ≤ c && c ≤ 'Z') || ('a' ≤ c && c ≤ 'z')

/-- The math-indicator class `[+=><^\\]` of `latex-processor.ts` line 238. -/
def mathIndicator (c : Char) : Bool :=
  c = '+' || c = '=' || c = '>' || c = '<' || c = '^' || c = '\\'

/-- `needle.isPrefixOf hay` for character lists (JS `startsWith`). -/
def strStartsWith : Str → Str → Bool
  | _, [] => true
  | [], _ :: _ => false
  | c :: s, p :: ps => c = p && strStartsWith s ps

/-- JS `hay.includes(needle)` : substring containment. -/
def strContains : Str → Str → Bool
  | [], pat => pat.isEmpty
  | c :: rest, pat => strStartsWith (c :: rest) pat || strContains rest pat

/-- Result of the rendering delegate, the shape returned by
`LatexProcessor.renderAndMeasure` (KaTeX render + DOM measurement,
including its internal catch branch): html markup, width/height in
cells, pixel width/height, and an optional failure reason. -/
structure RenderResult where
  html : Str
  width : Nat
  pixelWidth : Nat
  height : Nat
  pixelHeight : Nat
  error : Option Str
deriving DecidableEq, Repr

/-- External environment of the processor: the rendering delegate
(`renderAndMeasure`), the terminal cell metrics (`getCellDimensions`),
and the configured macro map in iteration order. -/
structure Env where
  render : Str → Bool → RenderResult
  cellW : Nat
  cellH : Nat
  macros : List (Str × Str)

/-- `LatexEntry` of `latex-hashmap.ts` as used by `latex-processor.ts`
lines 205-214 and 261-269: exactly one of `renderedHTML` / `renderError`
is populated at creation. -/
structure LatexEntry where
  latex : Str
  displayWidth : Nat
  displayHeight : Nat
  pixelWidth : Nat
  originalCellWidth : Nat
  originalCellHeight : Nat
  isDisplayEquation : Bool := false
  renderedHTML : Option Str := none
  renderError : Option Str := none
deriving DecidableEq, Repr

/-- Modelled from the spec: the Expression Store of `latex-hashmap.ts`
(file absent from src/).  Contract (spec section 4.3): `put` inserts or
overwrites with last-write-wins, `get` returns the entry or absence,
`clear` removes all.  Represented as an association list where the most
recent write for a hash is found first. -/
abbrev Store := List (Str × LatexEntry)

/-- Modelled from the spec: `LatexHashMap.set` — insert or overwrite,
last-write-wins on the hash key. -/
def storeSet (m : Store) (h : Str) (e : LatexEntry) : Store :=
  (h, e) :: m

/-- Modelled from the spec: `LatexHashMap.get` — the most recently
written entry for the hash, or absence. -/
def storeGet (m : Store) (h : Str) : Option LatexEntry :=
  (m.find? (fun p => p.1 == h)).map (fun p => p.2)

/-- The digit alphabet 0-9A-Za-z used for the fixed-length hash code. -/
def alnumDigit (n : Nat) : Char :=
  if n < 10 then Char.ofNat ('0'.toNat + n)
  else if n < 36 then Char.ofNat ('A'.toNat + (n - 10))
  else Char.ofNat ('a'.toNat + (n - 36))

/-- Modelled from the spec: `LatexHashMap.generateHash` (file absent
from src/) — a pure, deterministic function from the normalized
expression text to a fixed-length (3-character) alphanumeric code;
collisions possible, not cryptographically strong. -/
def generateHash (s : Str) : Str :=
  let n := s.foldl (fun a c => (a * 31 + c.toNat) % 238328) 7
  [alnumDigit (n / 3844 % 62), alnumDigit (n / 62 % 62), alnumDigit (n % 62)]

/-- Modelled from the spec: `LatexHashMap.formatPlaceholder` (file
absent from src/) — the placeholder token: one sentinel codepoint from
the private-use range, the hash characters, then inert filler to reach
the requested cell width (spec sections 4.3 and 6). -/
def formatPlaceholder (h : Str) (width : Nat) : Str :=
  '\uE000' :: h ++ List.replicate (width - (h.length + 1)) ' '

/-- The decode scan of `OverlayManager.updateOverlays` (overlay-manager.ts
lines 355-366): every occurrence of the sentinel codepoint immediately
followed by a fixed-length `[0-9A-Za-z]{3}` hash yields `(hash, column)`;
`i` is the column of the current scan position. -/
def decodeLine : Str → Nat → List (Str × Nat)
  | [], _ => []
  | c :: a :: b :: d :: rest2, i =>
    if c = '\uE000' && isAlnumJS a && isAlnumJS b && isAlnumJS d then
      ([a, b, d], i) :: decodeLine rest2 (i + 4)
    else
      decodeLine (a :: b :: d :: rest2) (i + 1)
  | _ :: rest, i => decodeLine rest (i + 1)

/-- One literal global replace (`String.replace` with an escaped-literal
global RegExp, latex-processor.ts line 171), with explicit fuel; empty
triggers are not modelled (the shipped macro map has none). -/
def replaceAllGo (pat repl : Str) : Nat → Str → Str
  | _, [] => []
  | 0, s => s
  | fuel + 1, c :: rest =>
    if !pat.isEmpty && strStartsWith (c :: rest) pat then
      repl ++ replaceAllGo pat repl fuel (List.drop pat.length (c :: rest))
    else
      c :: replaceAllGo pat repl fuel rest

/-- JS `s.replace(new RegExp(escapedPat, 'g'), repl)` for a literal
pattern. -/
def replaceAll (s pat repl : Str) : Str :=
  replaceAllGo pat repl s.length s

/-- `LatexProcessor.applyMacros` (lines 168-174): every macro trigger
replaced by its literal replacement, in the map's iteration order. -/
def applyMacros (macros : List (Str × Str)) (latex : Str) : Str :=
  macros.foldl (fun result p => replaceAll result p.1 p.2) latex

mutual

/-- `latex.replace(/\n\s*/g, ' ')` (latex-processor.ts line 192):
each newline together with the whitespace run after it becomes one
space. -/
def collapseNL : Str → Str
  | [] => []
  | '\n' :: rest => ' ' :: collapseNLSkip rest
  | c :: rest => c :: collapseNL rest

/-- Skipping the `\s*` tail of a `/\n\s*/` match. -/
def collapseNLSkip : Str → Str
  | [] => []
  | c :: rest => if isSpaceJS c then collapseNLSkip rest else c :: collapseNL rest

end

mutual

/-- `cleanLatex.replace(/\n\s*/g, '')` (latex-processor.ts line 234):
each newline and the whitespace run after it is deleted. -/
def stripNL : Str → Str
  | [] => []
  | '\n' :: rest => stripNLSkip rest
  | c :: rest => c :: stripNL rest

/-- Skipping the `\s*` tail of a `/\n\s*/` match (deleting variant). -/
def stripNLSkip : Str → Str
  | [] => []
  | c :: rest => if isSpaceJS c then stripNLSkip rest else c :: stripNL rest

end

/-- JS `String.prototype.trim` (ASCII whitespace range). -/
def trimJS (s : Str) : Str :=
  ((s.dropWhile isSpaceJS).reverse.dropWhile isSpaceJS).reverse

/-- `DetectorState` of the processor (`LatexProcessor` fields that the
core logic reads/writes): enabled flag, alternate-screen flag, the
cross-chunk carry-over buffer, and the expression store.  `calls` is the
trace of invocations of the rendering delegate, recording the effect
each call to `renderAndMeasure` has on the outside world. -/
structure PSt where
  enabled : Bool := true
  inAlternateScreen : Bool := false
  buffer : Str := []
  store : Store := []
  calls : List (Str × Bool) := []
deriving DecidableEq, Repr

/-- Normalization of block math (latex-processor.ts lines 190-192):
macro expansion, then newline collapapsing. -/
def normalizeBlock (env : Env) (latex : Str) : Str :=
  collapseNL (applyMacros env.macros latex)

/-- Normalization of inline math (latex-processor.ts lines 232-234):
macro expansion, newline deletion, then trim. -/
def cleanInline (env : Env) (content : Str) : Str :=
  trimJS (stripNL (applyMacros env.macros content))

/-- The replacement callback of the display pass
(latex-processor.ts lines 188-226): normalize, hash, render+measure
(delegate call recorded in the trace), store the entry — with
`renderError` exactly when the delegate failed — and emit the
placeholder wrapped in vertical padding. -/
def blockReplace (env : Env) (latex0 : Str) (st : PSt) : Str × PSt :=
  let latex := normalizeBlock env latex0
  let hash := generateHash latex
  let res := env.render latex true
  let st1 : PSt := { st with calls := st.calls ++ [(latex, true)] }
  let entry : LatexEntry :=
    { latex := latex
      displayWidth := res.width
      displayHeight := res.height
      pixelWidth := res.pixelWidth
      originalCellWidth := env.cellW
      originalCellHeight := env.cellH
      isDisplayEquation := true
      renderedHTML := if res.error.isSome then none else some res.html
      renderError := res.error }
  let st2 : PSt := { st1 with store := storeSet st1.store hash entry }
  let placeholder := formatPlaceholder hash res.width
  let verticalPadding := max 1 ((res.height + 1) / 2)
  (List.replicate verticalPadding '\n' ++ placeholder
     ++ List.replicate verticalPadding '\n', st2)

/-- The replacement callback of the inline pass
(latex-processor.ts lines 229-282): normalize; accept only if
`length < 7` or (`length < 150` and a math-indicator character occurs);
then trial-render (delegate call recorded) and, only on success, store
the entry and emit a placeholder of width `max (contentCells - 2) 4`;
otherwise return the original matched text. -/
def inlineReplace (env : Env) (content : Str) (st : PSt) : Str × PSt :=
  let origMatch : Str := '$' :: content ++ ['$']
  let clean := cleanInline env content
  let isSmall := clean.length < 7
  let isMathExpression := clean.length < 150 ∧ clean.any mathIndicator = true
  if ¬ isSmall ∧ ¬ isMathExpression then (origMatch, st)
  else
    let res := env.render clean false
    let st1 : PSt := { st with calls := st.calls ++ [(clean, false)] }
    if res.error.isSome then (origMatch, st1)
    else
      let hash := generateHash clean
      let entry : LatexEntry :=
        { latex := clean
          displayWidth := res.width
          displayHeight := if res.height = 0 then 1 else res.height
          pixelWidth := res.pixelWidth
          originalCellWidth := env.cellW
          originalCellHeight := env.cellH
          isDisplayEquation := false
          renderedHTML := some res.html
          renderError := none }
      let st2 : PSt := { st1 with store := storeSet st1.store hash entry }
      let contentCells := res.pixelWidth / env.cellW
      let adjustedCells := max (contentCells - 2) 4
      (formatPlaceholder hash adjustedCells, st2)

/-- A match of `/\$\$([^$]+?)\$\$/` anchored at the head of `s`: two
markers, a nonempty run of non-marker characters (the lazy `[^$]+?`
succeeds exactly at the first marker boundary), then two markers.
Returns the captured content and the text after the match. -/
def matchBlockAt : Str → Option (Str × Str)
  | '$' :: '$' :: rest =>
    let content := rest.takeWhile (fun c => c ≠ '$')
    match rest.dropWhile (fun c => c ≠ '$') with
    | '$' :: '$' :: after => if content.isEmpty then none else some (content, after)
    | _ => none
  | _ => none

/-- A match of `/\$([^$]+?)\$/` anchored at the head of `s`. -/
def matchInlineAt : Str → Option (Str × Str)
  | '$' :: rest =>
    let content := rest.takeWhile (fun c => c ≠ '$')
    match rest.dropWhile (fun c => c ≠ '$') with
    | '$' :: after => if content.isEmpty then none else some (content, after)
    | _ => none
  | _ => none

/-- Global-replace scan of the display pass (`result.replace(/\$\$([^$]+?)\$\$/g, ...)`,
latex-processor.ts line 188): leftmost matches, replaced text not
rescanned, scanning resumes after each match.  `fuel` bounds the
recursion; every step consumes at least one character, so
`fuel = s.length` is exact. -/
def blockScanF (env : Env) : Nat → Str → PSt → Str × PSt
  | _, [], st => ([], st)
  | 0, s, st => (s, st)
  | fuel + 1, c :: rest, st =>
    match matchBlockAt (c :: rest) with
    | some (content, after) =>
      match blockReplace env content st with
      | (rep, st1) =>
        match blockScanF env fuel after st1 with
        | (tail, st2) => (rep ++ tail, st2)
    | none =>
      match blockScanF env fuel rest st with
      | (tail, st1) => (c :: tail, st1)

/-- The display pass over a whole chunk. -/
def blockScan (env : Env) (s : Str) (st : PSt) : Str × PSt :=
  blockScanF env s.length s st

/-- Global-replace scan of the inline pass (`result.replace(/\$([^$]+?)\$/g, ...)`,
latex-processor.ts line 229). -/
def inlineScanF (env : Env) : Nat → Str → PSt → Str × PSt
  | _, [], st => ([], st)
  | 0, s, st => (s, st)
  | fuel + 1, c :: rest, st =>
    match matchInlineAt (c :: rest) with
    | some (content, after) =>
      match inlineReplace env content st with
      | (rep, st1) =>
        match inlineScanF env fuel after st1 with
        | (tail, st2) => (rep ++ tail, st2)
    | none =>
      match inlineScanF env fuel rest st with
      | (tail, st1) => (c :: tail, st1)

/-- The inline pass over a whole chunk. -/
def inlineScan (env : Env) (s : Str) (st : PSt) : Str × PSt :=
  inlineScanF env s.length s st

/-- JS `s.lastIndexOf(c)` for a single character: the index of the last
occurrence, or `-1`. -/
def lastIndexOfChar : Str → Char → Int
  | [], _ => -1
  | c :: rest, t =>
    let r := lastIndexOfChar rest t
    if r ≥ 0 then r + 1 else if c = t then 0 else -1

/-- JS `s.lastIndexOf(ab)` for a two-character pattern: the start index
of the last occurrence, or `-1`. -/
def lastIndexOfPair : Str → Char → Char → Int
  | [], _, _ => -1
  | c :: rest, a, b =>
    let r := lastIndexOfPair rest a b
    if r ≥ 0 then r + 1
    else
      match rest with
      | d :: _ => if c = a ∧ d = b then 0 else -1
      | [] => -1

/-- The fixed list of LaTeX control-sequence fragments that justify
buffering (latex-processor.ts lines 296-301). -/
def latexPatterns : List Str :=
  [("\\frac" : String).toList, ("\\sqrt" : String).toList,
   ("\\sum" : String).toList, ("\\int" : String).toList,
   ("\\nabla" : String).toList, ("\\partial" : String).toList,
   ("\\alpha" : String).toList, ("\\beta" : String).toList,
   ("\\gamma" : String).toList, ("\\theta" : String).toList,
   ("\\phi" : String).toList, ("\\psi" : String).toList,
   ("\\begin" : String).toList, ("\\end" : String).toList,
   ("\\left" : String).toList, ("\\right" : String).toList,
   ("^\x7b" : String).toList, ("_\x7b" : String).toList,
   ("\\cdot" : String).toList, ("\\times" : String).toList,
   ("\\div" : String).toList, ("\\mathbf" : String).toList,
   ("\\text" : String).toList]

/-- JS `afterDollar.match(/^\s/)` : the first character is whitespace. -/
def headIsSpace : Str → Bool
  | [] => false
  | c :: _ => isSpaceJS c

/-- The trailing-incomplete decision (latex-processor.ts lines 284-317):
if all guards pass, yields the index of the last marker after the last
newline together with the trailing span (`potentialBuffer`) to move into
the carry-over buffer. -/
def bufferCandidate (s : Str) : Option (Nat × Str) :=
  let lastSingle := lastIndexOfChar s '$'
  let lastDouble := lastIndexOfPair s '$' '$'
  let lastNewline := lastIndexOfChar s '\n'
  let lastDollar := max lastSingle lastDouble
  if lastNewline < lastDollar ∧ lastDollar ≠ -1 then
    let isDoubleDollar := lastDouble = lastDollar
    let dollarOffset : Nat := if isDoubleDollar then 2 else 1
    let afterDollar := s.drop (lastDollar.toNat + dollarOffset)
    let potentialBuffer := s.drop lastDollar.toNat
    let looksLikeLatex := latexPatterns.any (fun p => strContains afterDollar p)
    let isShellPrompt := ¬ isDoubleDollar ∧ (headIsSpace afterDollar || afterDollar.isEmpty) = true
    let maxBufferSize : Nat := if isDoubleDollar then 100 else 50
    let shouldBuffer := isDoubleDollar ∨ looksLikeLatex = true
    let closer : Str := if isDoubleDollar then ['$', '$'] else ['$']
    if strContains afterDollar closer = false ∧ afterDollar.contains '\n' = false ∧
       shouldBuffer ∧ ¬ isShellPrompt ∧ potentialBuffer.length < maxBufferSize then
      some (lastDollar.toNat, potentialBuffer)
    else none
  else none

/-- Applying the trailing-incomplete decision: move the trailing span
into the buffer and cut it from the emitted result, or leave both
untouched (latex-processor.ts lines 313-316). -/
def bufferStep (s : Str) : Str × Str :=
  match bufferCandidate s with
  | some (i, pb) => (s.take i, pb)
  | none => (s, [])

/-- The safety valve (latex-processor.ts lines 319-323): a buffer that
has grown beyond 100 characters is flushed verbatim in front of the
emitted result and cleared. -/
def flushOversized (result buffer : Str) : Str × Str :=
  if 100 < buffer.length then (buffer ++ result, []) else (result, buffer)

/-- `LatexProcessor.processLatex` (lines 179-326): prepend and clear the
carry-over buffer, run the display pass then the inline pass, decide
trailing-incomplete buffering, and apply the oversize safety valve.
Returns the emitted text and the updated state. -/
def processLatex (env : Env) (st : PSt) (text : Str) : Str × PSt :=
  match blockScan env (st.buffer ++ text) { st with buffer := [] } with
  | (r1, st1) =>
    match inlineScan env r1 st1 with
    | (r2, st2) =>
      match bufferStep r2 with
      | (r3, buf) =>
        match flushOversized r3 buf with
        | (r4, buf4) => (r4, { st2 with buffer := buf4 })

/-- `LatexProcessor.setEnabled` (lines 370-373): toggles only the
enabled flag. -/
def setEnabled (st : PSt) (enabled : Bool) : PSt :=
  { st with enabled := enabled }

/-- A payload of the wrapped `terminal.write`: either text or binary
data (`Uint8Array`, opaque to the processor). -/
inductive WData where
  | str (s : Str)
  | bytes (id : Nat)
deriving DecidableEq, Repr

/-- The alternate-screen enter control sequence checked at
latex-processor.ts line 142. -/
def altEnterSeq : Str := ("\x1b[?1049h" : String).toList

/-- The alternate-screen exit control sequence checked at
latex-processor.ts line 146. -/
def altExitSeq : Str := ("\x1b[?1049l" : String).toList

/-- The wrapper installed by `LatexProcessor.hookTerminalWrite`
(lines 135-163).  Returns the updated state and the list of calls made
to the original sink, each as (payload, completion callback). -/
def hookedWrite (env : Env) (st : PSt) (data : WData) (cb : Nat) :
    PSt × List (WData × Nat) :=
  match data with
  | WData.bytes n => (st, [(WData.bytes n, cb)])
  | WData.str s =>
    if st.enabled = false ∨ st.inAlternateScreen = true then
      (st, [(WData.str s, cb)])
    else if strContains s altEnterSeq then
      ({ st with inAlternateScreen := true }, [(WData.str s, cb)])
    else if strContains s altExitSeq then
      ({ st with inAlternateScreen := false }, [(WData.str s, cb)])
    else
      match processLatex env st s with
      | (out, st2) => (st2, [(WData.str out, cb)])

namespace OverlayManager

/-- State of an `OverlayManager` instance (overlay-manager.ts fields):
the enabled flag, the tracked overlays keyed by hash with the position
last scanned for that hash, whether a scroll-debounce timer is pending,
how many resize-rebuild `setTimeout` callbacks are outstanding (their
ids are never stored by the code, so they cannot be cancelled), and
whether the overlay container is still attached to the terminal
element.  The constructor subscribes the render/scroll/resize handlers
and nothing ever unsubscribes them, so the event functions below model
every notification delivery, before or after `dispose`. -/
structure OMSt where
  enabled : Bool := true
  overlays : List (Str × Nat × Nat) := []
  scrollTimerPending : Bool := false
  resizeRebuildsPending : Nat := 0
  containerAttached : Bool := true
deriving DecidableEq, Repr

/-- The buffer scan of `updateOverlays` (lines 344-367): decode every
visible row and keep the tokens whose hash resolves in the store
(`createOrUpdateOverlay` returns early when the entry is absent). -/
def scanGrid (grid : List Str) (store : Store) : List (Str × Nat × Nat) :=
  (grid.enum.map (fun rt =>
      (decodeLine rt.2 0).filterMap (fun hc =>
        if (storeGet store hc.1).isSome then some (hc.1, rt.1, hc.2) else none))).flatten

/-- `createOrUpdateOverlay` keyed by hash (lines 201-330): update the
tracked overlay in place if the hash already has one, otherwise append
a new one; the last scanned position wins. -/
def upsertOverlay (acc : List (Str × Nat × Nat)) (t : Str × Nat × Nat) :
    List (Str × Nat × Nat) :=
  if acc.any (fun u => u.1 == t.1) then
    acc.map (fun u => if u.1 == t.1 then t else u)
  else acc ++ [t]

/-- `updateOverlays` (lines 335-376): mark all tracked overlays stale,
create-or-update one per decoded-and-resolved token, then sweep the
overlays whose hash was not re-confirmed. -/
def updateOverlays (grid : List Str) (store : Store) (st : OMSt) : OMSt :=
  if st.enabled = false then st
  else
    let found := scanGrid grid store
    let merged := found.foldl upsertOverlay st.overlays
    { st with overlays := merged.filter (fun u => found.any (fun t => t.1 == u.1)) }

/-- Delivery of a render notification (lines 74-78). -/
def onRender (grid : List Str) (store : Store) (st : OMSt) : OMSt :=
  if st.enabled then updateOverlays grid store st else st

/-- Delivery of a scroll notification (lines 81-94): clear any existing
debounce timer and schedule a new one. -/
def onScroll (st : OMSt) : OMSt :=
  if st.enabled = false then st else { st with scrollTimerPending := true }

/-- Delivery of a resize notification (lines 97-104): drop every
overlay and schedule a rebuild after a fixed delay; the timer id is not
stored. -/
def onResize (st : OMSt) : OMSt :=
  if st.enabled then
    { st with overlays := [], resizeRebuildsPending := st.resizeRebuildsPending + 1 }
  else st

/-- `OverlayManager.dispose` (lines 401-412): clear the pending
scroll-debounce timer, remove every overlay, detach the container.  It
does not unsubscribe the event handlers, does not clear `enabled`, and
cannot cancel an outstanding resize-rebuild `setTimeout`. -/
def dispose (st : OMSt) : OMSt :=
  { st with scrollTimerPending := false, overlays := [], containerAttached := false }

end OverlayManager

/-! Concrete fixtures used by the closed theorems below. -/

/-- A rendering delegate that always succeeds, with fixed measurements
(10 cells / 80 px wide, 1 cell high). -/
def renderOK : Str → Bool → RenderResult :=
  fun _ _ => { html := ("<span>ok</span>" : String).toList, width := 10,
               pixelWidth := 80, height := 1, pixelHeight := 16, error := none }

/-- A rendering delegate that always fails, with the fallback
measurements of the catch branch of `renderAndMeasure`
(latex-processor.ts lines 118-129). -/
def renderFail : Str → Bool → RenderResult :=
  fun _ _ => { html := ("[LaTeX Error]" : String).toList, width := 12,
               pixelWidth := 120, height := 1, pixelHeight := 16,
               error := some (("boom" : String).toList) }

/-- The default macro map of the processor: `@nl` expands to a LaTeX
row separator (two backslashes). -/
def defaultMacros : List (Str × Str) :=
  [(("@nl" : String).toList, ("\\\\" : String).toList)]

/-- Test environment with the always-succeeding delegate and 8x16 cells. -/
def testEnv : Env :=
  { render := renderOK, cellW := 8, cellH := 16, macros := defaultMacros }

/-- Test environment with the always-failing delegate. -/
def failEnv : Env :=
  { render := renderFail, cellW := 8, cellH := 16, macros := defaultMacros }

/-- A freshly constructed processor state. -/
def initSt : PSt := {}

/-- A sample store entry used by the overlay fixtures. -/
def demoEntry : LatexEntry :=
  { latex := ("x" : String).toList, displayWidth := 4, displayHeight := 1,
    pixelWidth := 32, originalCellWidth := 8, originalCellHeight := 16,
    isDisplayEquation := false,
    renderedHTML := some (("<span>x</span>" : String).toList),
    renderError := none }

/-- A store holding `demoEntry` under the hash `a1Z`. -/
def demoStore : Store := storeSet [] (("a1Z" : String).toList) demoEntry

/-- A one-row viewport whose row carries the token for `a1Z`. -/
def demoGrid : List Str := [formatPlaceholder (("a1Z" : String).toList) 6]

/-- A freshly constructed overlay-manager state. -/
def omInit : OverlayManager.OMSt := {}

/-! Helper lemmas. -/

/-- Reading back the hash just written returns the new entry
(last-write-wins). -/
theorem storeGet_storeSet (m : Store) (h : Str) (e : LatexEntry) :
    storeGet (storeSet m h e) h = some e := by
  simp [storeGet, storeSet]

/-- The decode scan yields nothing on sentinel-free text. -/
theorem decodeLine_no_sentinel (s : Str) (i : Nat) :
    (∀ c ∈ s, c ≠ '\uE000') → decodeLine s i = [] := by
  induction s, i using decodeLine.induct with
  | case1 i => intro _; rfl
  | case2 c a b d rest2 i hcond ih =>
    intro hmem
    simp only [Bool.and_eq_true, decide_eq_true_eq] at hcond
    exact absurd hcond.1.1.1 (hmem c (by simp))
  | case3 c a b d rest2 i hcond ih =>
    intro hmem
    have hrec := ih (fun x hx => hmem x (List.mem_cons_of_mem _ hx))
    simp only [decodeLine]
    rw [if_neg hcond]
    exact hrec
  | case4 head rest i h1 ih =>
    intro hmem
    have hrec := ih (fun x hx => hmem x (List.mem_cons_of_mem _ hx))
    cases rest with
    | nil => rfl
    | cons x xs =>
      cases xs with
      | nil => rfl
      | cons y ys =>
        cases ys with
        | nil => rfl
        | cons z zs => exact (h1 x y z zs rfl).elim

/-- Decoding finds nothing in the filler of a token. -/
theorem decodeLine_replicate_space (n i : Nat) :
    decodeLine (List.replicate n ' ') i = [] := by
  apply decodeLine_no_sentinel
  intro c hc
  rw [List.eq_of_mem_replicate hc]
  decide

/-! Claim theorems. -/

/-- C3: for every valid 3-character alphanumeric hash `h` and every
width `w ≥ len(h)+1`, decoding the token produced by `encode(h, w)`
(the `formatPlaceholder` wire format) yields exactly one `(hash,
startColumn)` pair, namely `(h, 0)`: the sentinel codepoint followed by
the hash is recognized at column 0 and nowhere else in the token. -/
theorem decode_encode_roundtrip (h : Str) (w : Nat) (hlen : h.length = 3)
    (halnum : ∀ c ∈ h, isAlnumJS c = true) (hw : h.length + 1 ≤ w) :
    decodeLine (formatPlaceholder h w) 0 = [(h, 0)] := by
  obtain ⟨a, b, c, rfl⟩ := List.length_eq_three.mp hlen
  have ha := halnum a (by simp)
  have hb := halnum b (by simp)
  have hc := halnum c (by simp)
  simp only [formatPlaceholder, List.cons_append, List.nil_append, List.length_cons,
    List.length_nil]
  simp only [decodeLine, ha, hb, hc, Bool.and_true, decide_True, Bool.true_and,
    decide_eq_true_eq, if_pos rfl]
  simp [decodeLine_replicate_space]

/-- C3 witness: the round-trip law evaluated at the concrete hash
`a1Z` and width 6. -/
theorem decode_encode_roundtrip_witness :
    decodeLine (formatPlaceholder (("a1Z" : String).toList) 6) 0
      = [((("a1Z" : String).toList), 0)] :=
  decode_encode_roundtrip (("a1Z" : String).toList) 6 (by decide) (by decide) (by decide)

set_option maxHeartbeats 1000000 in
/-- C7: the input `cost is $5 today` — a single marker immediately
followed by non-math content and then whitespace — is emitted unchanged
by `processLatex` for every environment: no substitution is performed,
no delegate call is made, the store is untouched, and nothing is moved
into the carry-over buffer. -/
theorem shell_prompt_not_substituted :
    ∀ (env : Env) (store : Store) (calls : List (Str × Bool)),
      processLatex env
          { enabled := true, inAlternateScreen := false, buffer := [],
            store := store, calls := calls }
          (("cost is $5 today" : String).toList)
        = ((("cost is $5 today" : String).toList),
           { enabled := true, inAlternateScreen := false, buffer := [],
             store := store, calls := calls }) := by
  intro env store calls
  rfl

/-- C10: `setEnabled false` changes only the enabled flag — the
carry-over buffer, the alternate-screen flag, the store and the delegate
trace are untouched — and text buffered before disabling is still
prepended to the first chunk processed after re-enabling. -/
theorem setEnabled_only_toggles_flag :
    ∀ (st : PSt),
      (setEnabled st false).buffer = st.buffer
      ∧ (setEnabled st false).inAlternateScreen = st.inAlternateScreen
      ∧ (setEnabled st false).store = st.store
      ∧ (setEnabled st false).calls = st.calls
      ∧ (setEnabled st false).enabled = false
      ∧ ∀ (env : Env) (t : Str),
          processLatex env (setEnabled (setEnabled st false) true) t
            = processLatex env
                { setEnabled (setEnabled st false) true with buffer := [] }
                (st.buffer ++ t) := by
  intro st
  exact ⟨rfl, rfl, rfl, rfl, rfl, fun env t => rfl⟩

/-- C1: in every processed chunk, a block-math (double-marker) region is
always replaced by a placeholder token wrapped in vertical padding, and
an Entry is created whose `renderError` carries the delegate's failure
reason exactly when the delegate fails; whereas an inline-math
(single-marker) region whose trial rendering fails is emitted as the
original literal text, with the store and buffer untouched — no
substitution occurs. -/
theorem block_always_substituted_inline_left_literal :
    (∀ (env : Env) (latex : Str) (st : PSt),
      (blockReplace env latex st).1
        = List.replicate
              (max 1 (((env.render (normalizeBlock env latex) true).height + 1) / 2)) '\n'
            ++ formatPlaceholder (generateHash (normalizeBlock env latex))
                ((env.render (normalizeBlock env latex) true).width)
            ++ List.replicate
                  (max 1 (((env.render (normalizeBlock env latex) true).height + 1) / 2)) '\n'
      ∧ ∃ e, storeGet (blockReplace env latex st).2.store
               (generateHash (normalizeBlock env latex)) = some e
           ∧ e.renderError = (env.render (normalizeBlock env latex) true).error)
    ∧ (∀ (env : Env) (content : Str) (st : PSt),
        ((env.render (cleanInline env content) false).error).isSome = true →
          (inlineReplace env content st).1 = '$' :: content ++ ['$']
          ∧ (inlineReplace env content st).2.store = st.store
          ∧ (inlineReplace env content st).2.buffer = st.buffer) := by
  constructor
  · intro env latex st
    exact ⟨rfl, ⟨_, storeGet_storeSet _ _ _, rfl⟩⟩
  · intro env content st herr
    simp only [inlineReplace]
    by_cases hacc : ¬ (cleanInline env content).length < 7 ∧
        ¬ ((cleanInline env content).length < 150 ∧
           (cleanInline env content).any mathIndicator = true)
    · rw [if_pos hacc]
      exact ⟨rfl, rfl, rfl⟩
    · rw [if_neg hacc, if_pos herr]
      exact ⟨rfl, rfl, rfl⟩

/-- C1 witness: with the always-failing delegate, the inline candidate
`x+1` is left as the literal `$x+1$` with an empty store, while the
block content `E` still produces a store entry carrying the failure
reason. -/
theorem block_always_substituted_inline_left_literal_witness :
    (inlineReplace failEnv (("x+1" : String).toList) initSt).1
        = '$' :: (("x+1" : String).toList) ++ ['$']
    ∧ (inlineReplace failEnv (("x+1" : String).toList) initSt).2.store = []
    ∧ ∃ e, storeGet (blockReplace failEnv (("E" : String).toList) initSt).2.store
             (generateHash (normalizeBlock failEnv (("E" : String).toList))) = some e
         ∧ e.renderError = some (("boom" : String).toList) := by
  have hinl := block_always_substituted_inline_left_literal.2 failEnv
    (("x+1" : String).toList) initSt (by rfl)
  have hblk := (block_always_substituted_inline_left_literal.1 failEnv
    (("E" : String).toList) initSt).2
  refine ⟨hinl.1, hinl.2.1, ?_⟩
  obtain ⟨e, he, herr⟩ := hblk
  exact ⟨e, he, by rw [herr]; rfl⟩

/-- C8: an inline single-marker candidate is accepted as math (the
trial render is attempted, visible as a new delegate call) if and only
if, after macro expansion and whitespace stripping, its length is less
than 7, or its length is less than 150 and it contains a character from
the fixed math-indicator set; a candidate failing this test is left as
the original literal text with the state untouched. -/
theorem inline_acceptance_criterion :
    ∀ (env : Env) (content : Str) (st : PSt),
      (¬ ((cleanInline env content).length < 7 ∨
          ((cleanInline env content).length < 150 ∧
           (cleanInline env content).any mathIndicator = true)) →
        inlineReplace env content st = ('$' :: content ++ ['$'], st))
      ∧ (((cleanInline env content).length < 7 ∨
          ((cleanInline env content).length < 150 ∧
           (cleanInline env content).any mathIndicator = true)) →
        (inlineReplace env content st).2.calls
          = st.calls ++ [(cleanInline env content, false)]) := by
  intro env content st
  constructor
  · intro hrej
    simp only [inlineReplace]
    rw [if_pos ⟨(not_or.mp hrej).1, (not_or.mp hrej).2⟩]
  · intro hacc
    have hcond : ¬ (¬ (cleanInline env content).length < 7 ∧
        ¬ ((cleanInline env content).length < 150 ∧
           (cleanInline env content).any mathIndicator = true)) :=
      fun hand => hacc.elim hand.1 hand.2
    simp only [inlineReplace]
    rw [if_neg hcond]
    split <;> rfl

/-- C8 witness: `mydollar` (length 8, no indicator) is rejected and
left literal; `x+y` (length 3) is accepted and trial-rendered. -/
theorem inline_acceptance_criterion_witness :
    inlineReplace testEnv (("mydollar" : String).toList) initSt
        = ('$' :: (("mydollar" : String).toList) ++ ['$'], initSt)
    ∧ (inlineReplace testEnv (("x+y" : String).toList) initSt).2.calls
        = [((("x+y" : String).toList), false)] := by
  have h1 := (inline_acceptance_criterion testEnv
    (("mydollar" : String).toList) initSt).1 (by decide)
  have h2 := (inline_acceptance_criterion testEnv
    (("x+y" : String).toList) initSt).2 (by decide)
  refine ⟨h1, ?_⟩
  rw [h2]
  decide

/-- C2 counterexample: the spec's split `result: $\fr` / `ac{1}{2}$ done`
does not buffer (the fragment `\fr` matches no entry of the buffering
pattern list), so the two writes emit the literal text while the single
write substitutes — the outputs differ. -/
theorem chunk_split_equivalence_counterexample :
    ¬ ((processLatex testEnv initSt (("result: $\\fr" : String).toList)).1
        ++ (processLatex testEnv
              (processLatex testEnv initSt (("result: $\\fr" : String).toList)).2
              (("ac\x7b1\x7d\x7b2\x7d$ done" : String).toList)).1
      = (processLatex testEnv initSt
          (("result: $\\frac\x7b1\x7d\x7b2\x7d$ done" : String).toList)).1) := by
  decide

/-- C2 (amended): when the trailing fragment after the marker contains a
recognized control-sequence fragment, the split is buffered and the two
writes produce exactly the single-write substitution: `result: $\frac`
then `{1}{2}$ done` equals the one-shot `result: $\frac{1}{2}$ done`. -/
theorem chunk_split_equivalence_amended :
    (processLatex testEnv initSt (("result: $\\frac" : String).toList)).1
        ++ (processLatex testEnv
              (processLatex testEnv initSt (("result: $\\frac" : String).toList)).2
              (("\x7b1\x7d\x7b2\x7d$ done" : String).toList)).1
      = (processLatex testEnv initSt
          (("result: $\\frac\x7b1\x7d\x7b2\x7d$ done" : String).toList)).1 := by
  decide

/-- C4 counterexample: detecting the same inline expression `$x+y$`
twice invokes the rendering delegate a second time (the trace grows
from one call to two), so the second detection does not reuse the
existing entry without re-rendering. -/
theorem repeat_detection_reuse_counterexample :
    (processLatex testEnv initSt (("$x+y$" : String).toList)).2.calls.length = 1
    ∧ (processLatex testEnv
         (processLatex testEnv initSt (("$x+y$" : String).toList)).2
         (("$x+y$" : String).toList)).2.calls.length = 2 := by
  decide

/-- C4 (amended): two detections of the same expression hash
identically and emit the identical placeholder text, and the second
detection re-invokes the rendering delegate and overwrites the store
entry with an equal one (last-write-wins) instead of skipping the
render. -/
theorem repeat_detection_rerenders :
    (processLatex testEnv initSt (("$x+y$" : String).toList)).1
      = (processLatex testEnv
           (processLatex testEnv initSt (("$x+y$" : String).toList)).2
           (("$x+y$" : String).toList)).1
    ∧ (processLatex testEnv
         (processLatex testEnv initSt (("$x+y$" : String).toList)).2
         (("$x+y$" : String).toList)).2.calls
        = [((("x+y" : String).toList), false), ((("x+y" : String).toList), false)]
    ∧ storeGet (processLatex testEnv
         (processLatex testEnv initSt (("$x+y$" : String).toList)).2
         (("$x+y$" : String).toList)).2.store (generateHash (("x+y" : String).toList))
        = storeGet (processLatex testEnv initSt (("$x+y$" : String).toList)).2.store
            (generateHash (("x+y" : String).toList)) := by
  decide

/-- C5: every invocation of the wrapped write entry point calls the
original sink exactly once, with the original completion callback and
either the original or the substituted payload; binary payloads, and
payloads received while disabled or in alternate-screen mode, pass
through unmodified. -/
theorem write_hook_calls_sink_exactly_once :
    ∀ (env : Env) (st : PSt) (data : WData) (cb : Nat),
      (∃ p, (hookedWrite env st data cb).2 = [(p, cb)]
        ∧ (p = data ∨ ∃ s, data = WData.str s ∧ p = WData.str (processLatex env st s).1))
      ∧ (((∃ n, data = WData.bytes n) ∨ st.enabled = false ∨ st.inAlternateScreen = true) →
          (hookedWrite env st data cb).2 = [(data, cb)]) := by
  intro env st data cb
  cases data with
  | bytes n =>
    exact ⟨⟨WData.bytes n, rfl, Or.inl rfl⟩, fun _ => rfl⟩
  | str s =>
    by_cases hd : st.enabled = false ∨ st.inAlternateScreen = true
    · refine ⟨⟨WData.str s, ?_, Or.inl rfl⟩, fun _ => ?_⟩ <;>
        · simp only [hookedWrite]
          rw [if_pos hd]
    · have hno : ((∃ n, WData.str s = WData.bytes n) ∨ st.enabled = false ∨
          st.inAlternateScreen = true) → (hookedWrite env st (WData.str s) cb).2
            = [(WData.str s, cb)] := by
        intro habs
        rcases habs with ⟨n, hn⟩ | hE | hA
        · exact absurd hn (by simp)
        · exact absurd (Or.inl hE) hd
        · exact absurd (Or.inr hA) hd
      refine ⟨?_, hno⟩
      by_cases h1 : strContains s altEnterSeq = true
      · refine ⟨WData.str s, ?_, Or.inl rfl⟩
        simp only [hookedWrite]
        rw [if_neg hd, if_pos h1]
      · by_cases h2 : strContains s altExitSeq = true
        · refine ⟨WData.str s, ?_, Or.inl rfl⟩
          simp only [hookedWrite]
          rw [if_neg hd, if_neg h1, if_pos h2]
        · rcases hps : processLatex env st s with ⟨out, st2⟩
          refine ⟨WData.str out, ?_, Or.inr ⟨s, rfl, by rw [hps]⟩⟩
          simp only [hookedWrite]
          rw [if_neg hd, if_neg h1, if_neg h2, hps]

/-- C5 witness: while disabled, a text payload passes through as-is
with its callback. -/
theorem write_hook_calls_sink_exactly_once_witness :
    (hookedWrite testEnv (setEnabled initSt false)
        (WData.str (("hi" : String).toList)) 7).2
      = [(WData.str (("hi" : String).toList), 7)] :=
  (write_hook_calls_sink_exactly_once testEnv (setEnabled initSt false)
    (WData.str (("hi" : String).toList)) 7).2 (Or.inr (Or.inl rfl))

/-- A successful buffering decision always respects the size cap in
force: 100 for a double-marker candidate, 50 for a single-marker one. -/
theorem bufferCandidate_cap (s : Str) (i : Nat) (pb : Str)
    (h : bufferCandidate s = some (i, pb)) :
    pb.length < (if lastIndexOfPair s '$' '$'
        = max (lastIndexOfChar s '$') (lastIndexOfPair s '$' '$') then 100 else 50) := by
  simp only [bufferCandidate] at h
  split_ifs at h ⊢ <;>
    first
      | exact Option.noConfusion h
      | (obtain ⟨hi, hpb⟩ := Prod.mk.inj (Option.some.inj h)
         subst hpb
         tauto)

/-- The carry-over buffer emitted by one buffering step never exceeds
99 characters. -/
theorem bufferStep_snd_le (s : Str) : (bufferStep s).2.length ≤ 99 := by
  unfold bufferStep
  cases h : bufferCandidate s with
  | none => simp
  | some ip =>
    obtain ⟨i, pb⟩ := ip
    have hcap := bufferCandidate_cap s i pb h
    have hle : (if lastIndexOfPair s '$' '$'
        = max (lastIndexOfChar s '$') (lastIndexOfPair s '$' '$') then (100 : Nat) else 50)
        ≤ 100 := by split <;> norm_num
    simp only []
    omega

/-- The safety valve never grows the buffer. -/
theorem flushOversized_snd_le (r b : Str) :
    (flushOversized r b).2.length ≤ b.length := by
  unfold flushOversized
  split <;> simp

/-- C6: the carry-over buffer only ever receives a trailing candidate
span shorter than the size cap (100 characters for a double-marker
candidate, 50 for a single-marker one); a buffered candidate exceeding
100 characters is flushed verbatim into the emitted output with the
buffer cleared; and after every processed chunk the buffer holds at
most 100 characters, so detection resumes normally. -/
theorem buffer_caps_and_safety_valve :
    (∀ (s : Str) (i : Nat) (pb : Str), bufferCandidate s = some (i, pb) →
       pb.length < (if lastIndexOfPair s '$' '$'
           = max (lastIndexOfChar s '$') (lastIndexOfPair s '$' '$') then 100 else 50))
    ∧ (∀ (r b : Str), 100 < b.length → flushOversized r b = (b ++ r, []))
    ∧ (∀ (env : Env) (st : PSt) (t : Str),
        ((processLatex env st t).2).buffer.length ≤ 100) := by
  refine ⟨bufferCandidate_cap, ?_, ?_⟩
  · intro r b hb
    unfold flushOversized
    rw [if_pos hb]
  · intro env st t
    unfold processLatex
    rcases h1 : blockScan env (st.buffer ++ t) { st with buffer := [] } with ⟨r1, st1⟩
    rcases h2 : inlineScan env r1 st1 with ⟨r2, st2⟩
    rcases h3 : bufferStep r2 with ⟨r3, buf⟩
    rcases h4 : flushOversized r3 buf with ⟨r4, buf4⟩
    simp only [h1, h2, h3, h4]
    have hb : buf.length ≤ 99 := by
      have hbs := bufferStep_snd_le r2
      rw [h3] at hbs
      exact hbs
    have hf : buf4.length ≤ buf.length := by
      have hfs := flushOversized_snd_le r3 buf
      rw [h4] at hfs
      exact hfs
    show buf4.length ≤ 100
    omega

/-- C6 witness: the single-marker candidate `$\frac` is buffered under
the 50-character cap, and a 101-character buffer is flushed verbatim
and cleared. -/
theorem buffer_caps_and_safety_valve_witness :
    (("$\\frac" : String).toList).length < 50
    ∧ flushOversized [] (List.replicate 101 'a') = (List.replicate 101 'a', []) := by
  constructor
  · have h := buffer_caps_and_safety_valve.1 (("result: $\\frac" : String).toList) 8
      (("$\\frac" : String).toList) (by decide)
    rw [if_neg (by decide)] at h
    exact h
  · exact buffer_caps_and_safety_valve.2.1 [] (List.replicate 101 'a')
      (by rw [List.length_replicate]; norm_num)

/-- C9: evaluation at the failing input.  After `dispose()` the host
notification handlers are still subscribed and `enabled` is still true,
so notifications are not no-ops: a scroll schedules a fresh debounce
timer, a resize schedules an uncancellable delayed rebuild, a render
re-runs reconciliation and re-creates an overlay inside the detached
container, and an outstanding resize-rebuild timer survives `dispose()`
itself. -/
theorem post_dispose_notifications_not_noop :
    (OverlayManager.onScroll (OverlayManager.dispose omInit)).scrollTimerPending = true
    ∧ OverlayManager.onScroll (OverlayManager.dispose omInit)
        ≠ OverlayManager.dispose omInit
    ∧ (OverlayManager.onResize (OverlayManager.dispose omInit)).resizeRebuildsPending = 1
    ∧ (OverlayManager.onRender demoGrid demoStore (OverlayManager.dispose omInit)).overlays
        = [((("a1Z" : String).toList), 0, 0)]
    ∧ (OverlayManager.dispose { omInit with resizeRebuildsPending := 1 }).resizeRebuildsPending
        = 1 := by
  decide

end LaTerM
